import Mathlib

/-!
Verification development for the studybook focus-timer repository.

The definitions below are shallow embeddings of the TypeScript sources:
`src/utils.ts`, `src/App.tsx`, `src/components/MonthlyCalendar.tsx`,
`src/components/PerformanceGraph.tsx`, `src/components/GanttTimeline.tsx`.
JavaScript numbers that hold integral quantities are modelled as `Int`
(or `Nat` where the quantity is a count), `NaN`-producing primitives are
modelled with `Option`, and strings are modelled as `String` / `List Char`.
-/

/-! ### Character and digit primitives

These model the JavaScript string/number primitives used by the sources:
`Number(...)` on the digit strings produced by `toString`/`padStart`,
`parseInt`, and `String.prototype.split`. -/

/-- A decimal digit character, `'0'`..`'9'`. Models the character class that
`Number(...)` and `parseInt` accept at the call sites embedded here. -/
def isDigitChar (c : Char) : Bool :=
  48 ≤ c.toNat && c.toNat ≤ 57

/-- The character for a single decimal digit value. -/
def digitChar (d : Nat) : Char := Char.ofNat (48 + d)

/-- The numeric value of a decimal digit character. -/
def charVal (c : Char) : Nat := c.toNat - 48

/-- Little-endian decimal digits of `n`, with explicit fuel so that the
definition is structural (kernel-reducible). `toDigitsAux fuel n` is the
digit list of `n` whenever `n ≤ fuel`. -/
def toDigitsAux : Nat → Nat → List Nat
  | 0, _ => []
  | fuel + 1, n => if n = 0 then [] else n % 10 :: toDigitsAux fuel (n / 10)

/-- Decimal rendering of a natural number, modelling JavaScript
`n.toString()` for nonnegative integral `n` (most significant digit first;
`0` renders as `"0"`). -/
def natToChars (n : Nat) : List Char :=
  if n = 0 then ['0'] else ((toDigitsAux n n).map digitChar).reverse

/-- Value of a little-endian decimal digit list. -/
def digitsVal : List Nat → Nat
  | [] => 0
  | d :: ds => d + 10 * digitsVal ds

/-- Models `s.padStart(2, '0')` from `src/utils.ts` (`formatTime`). -/
def padTo2 (l : List Char) : List Char :=
  if 2 ≤ l.length then l else List.replicate (2 - l.length) '0' ++ l

/-- Models JavaScript `Number(s)` at the call sites of the sources, where
the argument is a chunk of a clock string: the empty string converts to
`0`, a pure digit string to its value, and anything else to `NaN`
(modelled as `none`). -/
def jsNumber (l : List Char) : Option Nat :=
  if l.isEmpty then some 0
  else if l.all isDigitChar then some (digitsVal ((l.map charVal).reverse))
  else none

/-- Models JavaScript `parseInt(s)` at the call sites of the sources, where
the argument never carries a sign or leading whitespace: the longest digit
prefix is converted, and `NaN` (`none`) results when there is none. -/
def jsParseInt (l : List Char) : Option Nat :=
  let ds := l.takeWhile isDigitChar
  if ds.isEmpty then none else some (digitsVal ((ds.map charVal).reverse))

/-- Models `String.prototype.split(sep)` for a one-character separator. -/
def splitOnChar (sep : Char) : List Char → List (List Char)
  | [] => [[]]
  | c :: cs =>
    match splitOnChar sep cs with
    | [] => [[]]
    | r :: rs => if c = sep then [] :: r :: rs else (c :: r) :: rs

/-! ### Duration Codec

`formatTime` embeds `src/utils.ts` lines 2-11; `parseDurationToMinutes`
embeds the duration parser of `src/components/PerformanceGraph.tsx`
(`parseDurationToMinutes`, used by the ledger aggregation). -/

/-- Embeds `formatTime` (src/utils.ts): renders a second count as
`hh:mm:ss` when at least one hour, else `mm:ss`, with two-digit padding.
The source is only ever applied to nonnegative second counts. -/
def formatChars (seconds : Nat) : List Char :=
  let h := seconds / 3600
  let m := (seconds % 3600) / 60
  let s := seconds % 60
  if 0 < h then
    padTo2 (natToChars h) ++ ':' :: padTo2 (natToChars m) ++ ':' :: padTo2 (natToChars s)
  else
    padTo2 (natToChars m) ++ ':' :: padTo2 (natToChars s)

/-- `formatTime` as a `String`-valued function. -/
def formatTime (seconds : Nat) : String := String.mk (formatChars seconds)

/-- Embeds `parseDurationToMinutes` (src/components/PerformanceGraph.tsx):
`dur.split(':').map(Number)`; three parts give `h*60 + m + s/60` minutes,
two parts give `m + s/60` minutes, any other shape gives `0`. A `NaN`
part (modelled by `none`) makes the arithmetic result `NaN` (`none`). -/
def parseChars (l : List Char) : Option Rat :=
  match (splitOnChar ':' l).map jsNumber with
  | [some a, some b, some c] => some ((a : Rat) * 60 + (b : Rat) + (c : Rat) / 60)
  | [some a, some b] => some ((a : Rat) + (b : Rat) / 60)
  | [_, _] => none
  | [_, _, _] => none
  | _ => some 0

/-- `parseDurationToMinutes` as a `String`-consuming function. -/
def parseDurationToMinutes (s : String) : Option Rat := parseChars s.data

/-! ### Data model (src/types.ts as used by src/App.tsx) -/

/-- Subtask importance classification. -/
inductive Importance where
  | important
  | notImportant
deriving DecidableEq, Repr

/-- Subtask urgency classification. -/
inductive Urgency where
  | emergent
  | notEmergent
deriving DecidableEq, Repr

/-- A subtask of a project (`Subtask` in src/types.ts). Session counters
are JavaScript numbers, modelled as `Int`. -/
structure Subtask where
  id : String
  name : String
  description : String
  targetSessions : Int
  completedSessions : Int
  importance : Importance
  urgency : Urgency
deriving DecidableEq, Repr

/-- One ledger record (`AppSessionLog` in src/types.ts): a date label, a
duration string in the Duration Codec format, and optional attribution. -/
structure AppSessionLog where
  date : String
  duration : String
  projectId : Option String
  subtaskId : Option String
deriving DecidableEq, Repr

/-- A project (`Project` in src/types.ts). `createdAt` and
`recurrenceEndDate` are calendar days, modelled as day numbers. -/
structure Project where
  id : String
  name : String
  description : String
  createdAt : Int
  isDaily : Bool
  recurrenceEndDate : Option Int
  subtasks : List Subtask
deriving DecidableEq, Repr

/-- Configured timer durations in minutes (`settings.durations`). -/
structure Durations where
  pomodoro : Int
  shortBreak : Int
  longBreak : Int
deriving DecidableEq, Repr

/-- Theme colors (`settings.colors`); carried opaquely. -/
structure Colors where
  pomodoro : String
  shortBreak : String
  longBreak : String
deriving DecidableEq, Repr

/-- Application settings (`AppSettings` in src/types.ts). -/
structure Settings where
  durations : Durations
  colors : Colors
  autoStartBreaks : Bool
  autoStartPomodoros : Bool
  dailyPomodoroTarget : Int
deriving DecidableEq, Repr

/-- Timer modes (`TimerMode` in src/types.ts). -/
inductive TimerMode where
  | pomodoro
  | shortBreak
  | longBreak
deriving DecidableEq, Repr

/-- The mutable application state owned by the `App` component
(src/App.tsx): project collection, session ledger, day notes/agendas,
active selection, settings, and the transient timer state. -/
structure AppState where
  projects : List Project
  appHistory : List AppSessionLog
  dayNotes : List (String × String)
  dayAgendas : List (String × List (String × String))
  selectedProjectId : Option String
  activeSubtaskId : Option String
  settings : Settings
  timerMode : TimerMode
  timeLeft : Int
  isActive : Bool
  pomoCount : Nat
deriving DecidableEq, Repr

/-! ### Ledger queries and project statistics (src/utils.ts) -/

/-- Embeds `getDailyProjectCompletion` (src/utils.ts lines 58-67): the
number of ledger entries whose `projectId` and `date` both match exactly
(string equality on the date label); each entry counts as one session. -/
def getDailyProjectCompletion (projectId : String) (dateStr : String)
    (history : List AppSessionLog) : Nat :=
  (history.filter (fun log => log.projectId = some projectId ∧ log.date = dateStr)).length

/-- Sum of `targetSessions` over a subtask list, as the sources compute it
with `reduce((sum, t) => sum + t.targetSessions, 0)`. -/
def sumTargets (l : List Subtask) : Int :=
  (l.map (fun t => t.targetSessions)).sum

/-- Sum of `completedSessions` over a subtask list. -/
def sumCompleted (l : List Subtask) : Int :=
  (l.map (fun t => t.completedSessions)).sum

/-- Derived statistics displayed for a project. -/
structure ProjectStats where
  totalSessions : Int
  completedSessions : Int
  timeSpent : String
  timeRemaining : String
deriving DecidableEq, Repr

/-- Embeds `calculateProjectStats` (src/utils.ts lines 27-45). -/
def calculateProjectStats (subtasks : List Subtask) : ProjectStats :=
  let totalSessions := sumTargets subtasks
  let completedSessions := sumCompleted subtasks
  { totalSessions := totalSessions
    completedSessions := completedSessions
    timeSpent := formatTime (completedSessions * 25 * 60).toNat
    timeRemaining := formatTime ((max 0 (totalSessions - completedSessions)) * 25 * 60).toNat }

/-- Embeds the `selectedProjectStats` memo (src/App.tsx lines 379-393):
for daily projects the figures are derived from the ledger count for
today's label and the summed targets; for standard projects from the
stored counters. -/
def selectedProjectStats (p : Project) (todayStr : String)
    (history : List AppSessionLog) : ProjectStats :=
  if p.isDaily then
    let dailyDone : Int := getDailyProjectCompletion p.id todayStr history
    let dailyTarget := sumTargets p.subtasks
    { totalSessions := dailyTarget
      completedSessions := dailyDone
      timeSpent := formatTime (dailyDone * 25 * 60).toNat
      timeRemaining := formatTime ((max 0 (dailyTarget - dailyDone)) * 25 * 60).toNat }
  else calculateProjectStats p.subtasks

/-! ### Timer state machine (src/App.tsx) -/

/-- The configured duration (in minutes) for a timer mode, as selected by
the `durationKey` computation in src/App.tsx. -/
def durationFor (d : Durations) : TimerMode → Int
  | .pomodoro => d.pomodoro
  | .shortBreak => d.shortBreak
  | .longBreak => d.longBreak

/-- Embeds `updateSubtaskProgress` (src/App.tsx lines 154-159): in the
project with the given id, increment the matching subtask's
`completedSessions` by one. -/
def updateSubtaskProgress (projectId subtaskId : String)
    (projects : List Project) : List Project :=
  projects.map fun p =>
    if p.id ≠ projectId then p
    else { p with subtasks := p.subtasks.map fun t =>
            if t.id ≠ subtaskId then t
            else { t with completedSessions := t.completedSessions + 1 } }

/-- Embeds `handleTimerComplete` (src/App.tsx lines 123-152). `todayStr`
is today's locale-formatted date label (the `toLocaleDateString` result).
In `pomodoro` mode: bump the session counter, append one ledger record,
credit the active subtask when both ids are set, and move to the break
selected by the counter; in a break mode: move back to `pomodoro`. -/
def handleTimerComplete (todayStr : String) (st : AppState) : AppState :=
  let st := { st with isActive := false }
  match st.timerMode with
  | .pomodoro =>
    let nextPomoCount := st.pomoCount + 1
    let newLog : AppSessionLog :=
      { date := todayStr
        duration := formatTime (st.settings.durations.pomodoro * 60).toNat
        projectId := st.selectedProjectId
        subtaskId := st.activeSubtaskId }
    let st := { st with pomoCount := nextPomoCount
                        appHistory := st.appHistory ++ [newLog] }
    let st :=
      match st.activeSubtaskId, st.selectedProjectId with
      | some tid, some pid =>
        { st with projects := updateSubtaskProgress pid tid st.projects }
      | _, _ => st
    let nextMode : TimerMode :=
      if nextPomoCount % 4 = 0 then .longBreak else .shortBreak
    let nextTime :=
      if nextMode = TimerMode.longBreak then st.settings.durations.longBreak * 60
      else st.settings.durations.shortBreak * 60
    { st with timerMode := nextMode, timeLeft := nextTime,
              isActive := st.settings.autoStartBreaks }
  | _ =>
    { st with timerMode := .pomodoro,
              timeLeft := st.settings.durations.pomodoro * 60,
              isActive := st.settings.autoStartPomodoros }

/-- Embeds `skipTimer` (src/App.tsx lines 163-166): stop the countdown and
force a completion, regardless of the remaining time. -/
def skipTimer (todayStr : String) (st : AppState) : AppState :=
  handleTimerComplete todayStr { st with isActive := false }

/-- One firing of the countdown interval callback
(src/App.tsx lines 109-117): the interval is installed exactly while the
timer is active with `timeLeft > 0`, and each firing decrements
`timeLeft` by one. -/
def tick (st : AppState) : AppState :=
  if st.isActive = true ∧ 0 < st.timeLeft then { st with timeLeft := st.timeLeft - 1 }
  else st

/-- Embeds the `timeLeft` re-derivation effect (src/App.tsx lines 104-107):
whenever `settings.durations` or `timerMode` changes, `timeLeft` is set to
the current mode's configured minutes times 60. The effect carries no
`isActive` guard. -/
def rederiveTimeLeft (st : AppState) : AppState :=
  { st with timeLeft := durationFor st.settings.durations st.timerMode * 60 }

/-- A user edit of the duration settings (Settings modal, src/App.tsx):
the durations object is replaced and the re-derivation effect fires. -/
def changeDurations (st : AppState) (d : Durations) : AppState :=
  rederiveTimeLeft { st with settings := { st.settings with durations := d } }

/-- Embeds the duration-field `onChange` conversion
`parseInt(e.target.value) || 1` (src/App.tsx line 645): a non-numeric
entry (`parseInt` gives `NaN`, modelled `none`) and the entry `0` fall
back to `1`; every other integer, including a negative one, is kept. -/
def settingsDurationInput (raw : Option Int) : Int :=
  match raw with
  | none => 1
  | some v => if v = 0 then 1 else v

/-- Embeds `updateSessionTarget` (src/App.tsx lines 325-336): adjust a
subtask's target by `increment`, floored at `completedSessions` and 1. -/
def updateSessionTarget (projectId subtaskId : String) (increment : Int)
    (projects : List Project) : List Project :=
  projects.map fun p =>
    if p.id ≠ projectId then p
    else { p with subtasks := p.subtasks.map fun t =>
            if t.id ≠ subtaskId then t
            else
              let newTarget := t.targetSessions + increment
              let newTarget := if newTarget < t.completedSessions then t.completedSessions else newTarget
              let newTarget := if newTarget < 1 then 1 else newTarget
              { t with targetSessions := newTarget } }

/-- Embeds the subtask update of `handleUpdateSubtask`
(src/App.tsx lines 277-292): replace name, description, target and the
classification labels of the subtask being edited, in every project that
contains it; `completedSessions` is carried over unchanged. -/
def handleUpdateSubtask (subtaskId : String) (name description : String)
    (target : Int) (importance : Importance) (urgency : Urgency)
    (projects : List Project) : List Project :=
  projects.map fun p =>
    if ¬ (p.subtasks.any fun t => t.id = subtaskId) then p
    else { p with subtasks := p.subtasks.map fun t =>
            if t.id = subtaskId then
              { t with name := name, description := description,
                       targetSessions := target,
                       importance := importance, urgency := urgency }
            else t }

/-! ### Snapshot import (src/App.tsx `handleImport`) -/

/-- A parsed snapshot object (`AppData`), as `handleImport` receives it
from `JSON.parse`. Each top-level field may be missing (or `null`), which
the source detects with a truthiness check; that is modelled by
`Option` (`none` = absent/falsy). An empty `projects` array is a truthy
JavaScript value, so it is `some []` here. -/
structure Snapshot where
  projects : Option (List Project)
  appHistory : Option (List AppSessionLog)
  dayNotes : Option (List (String × String))
  dayAgendas : Option (List (String × List (String × String)))
  settings : Option Settings
deriving DecidableEq, Repr

/-- Embeds `handleImport` (src/App.tsx lines 355-373), after a successful
`JSON.parse`: each present top-level field replaces the corresponding
state, each absent one leaves it unchanged; when a non-empty project list
is imported the first project becomes selected. -/
def handleImport (st : AppState) (json : Snapshot) : AppState :=
  let st :=
    match json.projects with
    | some ps =>
      { st with projects := ps
                selectedProjectId :=
                  match ps with
                  | [] => st.selectedProjectId
                  | p :: _ => some p.id }
    | none => st
  let st := match json.appHistory with
            | some h => { st with appHistory := h }
            | none => st
  let st := match json.dayNotes with
            | some n => { st with dayNotes := n }
            | none => st
  let st := match json.dayAgendas with
            | some a => { st with dayAgendas := a }
            | none => st
  match json.settings with
  | some s => { st with settings := s }
  | none => st

/-! ### Recurrence & progress projector (src/components/MonthlyCalendar.tsx) -/

/-- Per-day classification of a daily-recurring project. -/
inductive DayStatus where
  | success
  | failed
  | pending
deriving DecidableEq, Repr

/-- Embeds the per-day status computation of the daily branch of
`projectsByDay` (src/components/MonthlyCalendar.tsx lines 119-128):
`status` starts as `pending`; for a date on or before today it becomes
`success` when `done ≥ target`, else `failed` when the date is strictly
before today. Dates are day numbers, comparisons mirror the `Date`
comparisons of the source. -/
def dayStatus (loopDate today : Int) (done target : Int) : DayStatus :=
  if loopDate ≤ today then
    if done ≥ target then .success
    else if loopDate < today then .failed
    else .pending
  else .pending

/-- `Math.ceil(a / b)` for integers with a positive divisor:
the ceiling of the rational `a / b`, written via floor division. -/
def jsCeilDiv (a b : Int) : Int := -((-a).fdiv b)

/-- Embeds `settings.dailyPomodoroTarget || 6` (MonthlyCalendar.tsx
line 103, GanttTimeline.tsx line 20): `0` is falsy and falls back to 6. -/
def resolvedDailyTarget (s : Settings) : Int :=
  if s.dailyPomodoroTarget = 0 then 6 else s.dailyPomodoroTarget

/-- Embeds the span computation of the standard (non-daily) branch of
`projectsByDay` (src/components/MonthlyCalendar.tsx lines 140-158): the
summed subtask targets, with a non-positive sum replaced by 1, divided by
the daily target and rounded up. -/
def calendarSpanDays (subtasks : List Subtask) (dailyTarget : Int) : Int :=
  let totalPoms := sumTargets subtasks
  let totalPoms := if totalPoms ≤ 0 then 1 else totalPoms
  jsCeilDiv totalPoms dailyTarget

/-- Embeds the per-project span used by `timelineRange`
(src/components/GanttTimeline.tsx lines 38-44): the summed subtask
targets divided by the daily target and rounded up, with no guard for an
empty or zero-target subtask list. -/
def ganttSpanDays (subtasks : List Subtask) (dailyTarget : Int) : Int :=
  jsCeilDiv (sumTargets subtasks) dailyTarget

/-! ### Date-label parsing and chart aggregation
(src/components/PerformanceGraph.tsx) -/

/-- A JavaScript `Date` value as the chart code observes it: either an
invalid date (`getTime()` is `NaN`) or a calendar date built from a year,
a zero-based month index and a day of month. -/
inductive JsDate where
  | invalid
  | valid (year month day : Int)
deriving DecidableEq, Repr

/-- `new Date(year, month, day)`: a `NaN` year or day argument (modelled
`none`) produces an invalid date. -/
def jsMkDate (year : Option Int) (month : Int) (day : Option Int) : JsDate :=
  match year, day with
  | some y, some d => .valid y month d
  | _, _ => .invalid

/-- The three-letter month table of `parseDate`/`parseDateStr`
(src/components/PerformanceGraph.tsx lines 162-165). -/
def monthAbbrevs : List (String × Int) :=
  [("Jan", 0), ("Feb", 1), ("Mar", 2), ("Apr", 3), ("May", 4), ("Jun", 5),
   ("Jul", 6), ("Aug", 7), ("Sep", 8), ("Oct", 9), ("Nov", 10), ("Dec", 11)]

/-- The full month names used by the long locale label
("04 December 2025"), indexed by zero-based month. -/
def monthNames : List String :=
  ["January", "February", "March", "April", "May", "June", "July",
   "August", "September", "October", "November", "December"]

/-- The full month names paired with their zero-based indices. -/
def monthFulls : List (String × Int) :=
  [("January", 0), ("February", 1), ("March", 2), ("April", 3), ("May", 4),
   ("June", 5), ("July", 6), ("August", 7), ("September", 8),
   ("October", 9), ("November", 10), ("December", 11)]

/-- Looks a month name up in a name table; `none` models an absent
object property (`undefined`). -/
def lookupMonth (table : List (String × Int)) (s : List Char) : Option Int :=
  match table.find? (fun e => e.1.data = s) with
  | some e => some e.2
  | none => none

/-- Modelled host behavior: `new Date(dateStr)` for the strings reaching
`parseDate`. The constructor accepts the long localized label
`"DD <full month name> YYYY"` that the logger produces
(src/App.tsx line 130) and yields that calendar date; every other string
shape is modelled as an invalid date. -/
def jsDateOfString (l : List Char) : JsDate :=
  match splitOnChar ' ' l with
  | [dayPart, monthPart, yearPart] =>
    match jsNumber dayPart, lookupMonth monthFulls monthPart, jsNumber yearPart with
    | some d, some m, some y =>
      if dayPart.isEmpty ∨ yearPart.isEmpty then .invalid
      else .valid (y : Int) m (d : Int)
    | _, _, _ => .invalid
  | _ => .invalid

/-- Embeds `parseDate` (src/components/PerformanceGraph.tsx
lines 152-170): try the host `Date` constructor; when that yields an
invalid date, fall back to the compact `"04Dec25"` shape — a two-digit
day, a three-letter month looked up with `?? 0`, and `2000` plus the
two-digit year. None of the fallback's operations can throw, so the
source's `catch` arm (returning the epoch) is unreachable and has no
counterpart here. -/
def parseDate (l : List Char) : JsDate :=
  match jsDateOfString l with
  | .valid y m d => .valid y m d
  | .invalid =>
    let day := jsParseInt (l.take 2)
    let monthStr := (l.drop 2).take 3
    let month := (lookupMonth monthAbbrevs monthStr).getD 0
    let year := (jsParseInt (l.drop 5)).map (fun y => 2000 + (y : Int))
    jsMkDate (year) month ((day).map (fun d => (d : Int)))

/-- The long locale label `"DD <full month name> YYYY"` produced by
`toLocaleDateString('en-GB', { day: '2-digit', month: 'long',
year: 'numeric' })` for day `d`, zero-based month `m` and year `y`. -/
def longLabel (d : Nat) (m : Nat) (y : Nat) : List Char :=
  padTo2 (natToChars d) ++ ' ' :: ((monthNames.getD m "").data ++ ' ' :: natToChars y)

/-- The legacy compact label `"DDMonYY"` (for example `"04Dec25"`) for
day `d`, zero-based month `m` and two-digit year `y2`. -/
def compactLabel (d : Nat) (m : Nat) (y2 : Nat) : List Char :=
  padTo2 (natToChars d) ++ ((monthAbbrevs.getD m ("", 0)).1.data ++ padTo2 (natToChars y2))

/-- The distinct date labels of a ledger, in first-appearance order:
the key set of the `dailyAggregates` object built by the chart
(src/components/PerformanceGraph.tsx lines 173-182). -/
def distinctDates (data : List AppSessionLog) : List String :=
  data.foldl (fun acc log => if log.date ∈ acc then acc else acc ++ [log.date]) []

/-- The month key (`year`, zero-based month) of a parsed date; `none` for
an invalid date, which the grouping loop skips with
`if (isNaN(item.dateObj.getTime())) return`
(src/components/PerformanceGraph.tsx line 189). -/
def monthKeyOf : JsDate → Option (Int × Int)
  | .invalid => none
  | .valid y m _ => some (y, m)

/-- The month keys that receive a group in the chart's month grouping
(src/components/PerformanceGraph.tsx lines 185-208), with multiplicity by
distinct date label: every distinct parseable date label contributes to
its month, and invalid-dated labels are skipped. -/
def chartMonthKeys (data : List AppSessionLog) : List (Int × Int) :=
  (distinctDates data).filterMap (fun lbl => monthKeyOf (parseDate lbl.data))

/-! ### Lemmas: decimal digits and the Duration Codec -/

theorem digitsVal_toDigitsAux : ∀ fuel n, n ≤ fuel → digitsVal (toDigitsAux fuel n) = n := by
  intro fuel
  induction fuel with
  | zero =>
    intro n h
    have h0 : n = 0 := by omega
    subst h0; rfl
  | succ fuel ih =>
    intro n h
    by_cases h0 : n = 0
    · subst h0; rfl
    · have hdiv : n / 10 ≤ fuel := by omega
      simp only [toDigitsAux, h0, if_false, digitsVal, ih _ hdiv]
      omega

theorem toDigitsAux_lt_ten : ∀ fuel n d, d ∈ toDigitsAux fuel n → d < 10 := by
  intro fuel
  induction fuel with
  | zero => intro n d hd; simp [toDigitsAux] at hd
  | succ fuel ih =>
    intro n d hd
    by_cases h0 : n = 0
    · subst h0; simp [toDigitsAux] at hd
    · simp only [toDigitsAux, h0, if_false, List.mem_cons] at hd
      rcases hd with hd | hd
      · omega
      · exact ih _ _ hd

theorem toDigitsAux_ne_nil (n : Nat) (h : n ≠ 0) : toDigitsAux n n ≠ [] := by
  cases n with
  | zero => exact absurd rfl h
  | succ m => simp [toDigitsAux, h]

theorem charVal_digitChar (d : Nat) (h : d < 10) : charVal (digitChar d) = d := by
  interval_cases d <;> decide

theorem isDigitChar_digitChar (d : Nat) (h : d < 10) : isDigitChar (digitChar d) = true := by
  interval_cases d <;> decide

theorem natToChars_all_digits (n : Nat) : (natToChars n).all isDigitChar = true := by
  unfold natToChars
  by_cases h0 : n = 0
  · subst h0; decide
  · simp only [h0, if_false, List.all_eq_true, List.mem_reverse, List.mem_map]
    rintro c ⟨d, hd, rfl⟩
    exact isDigitChar_digitChar d (toDigitsAux_lt_ten _ _ _ hd)

theorem natToChars_ne_nil (n : Nat) : natToChars n ≠ [] := by
  unfold natToChars
  by_cases h0 : n = 0
  · simp [h0]
  · simp only [h0, if_false, ne_eq, List.reverse_eq_nil_iff, List.map_eq_nil_iff]
    exact toDigitsAux_ne_nil n h0

theorem digitsVal_natToChars (n : Nat) :
    digitsVal (((natToChars n).map charVal).reverse) = n := by
  unfold natToChars
  by_cases h0 : n = 0
  · subst h0; rfl
  · simp only [h0, if_false, List.map_reverse, List.reverse_reverse, List.map_map]
    have hmap : (toDigitsAux n n).map (charVal ∘ digitChar) = toDigitsAux n n := by
      rw [List.map_congr_left, List.map_id]
      intro d hd
      exact charVal_digitChar d (toDigitsAux_lt_ten _ _ _ hd)
    rw [hmap, digitsVal_toDigitsAux n n le_rfl]

theorem jsNumber_natToChars (n : Nat) : jsNumber (natToChars n) = some n := by
  unfold jsNumber
  rw [if_neg (by simpa [List.isEmpty_iff] using natToChars_ne_nil n),
      if_pos (natToChars_all_digits n), digitsVal_natToChars]

theorem digitsVal_append_zeros (l : List Nat) (k : Nat) :
    digitsVal (l ++ List.replicate k 0) = digitsVal l := by
  induction l with
  | nil =>
    simp only [List.nil_append, digitsVal]
    induction k with
    | zero => rfl
    | succ k ih => simpa [List.replicate_succ, digitsVal] using ih
  | cons d ds ih => simp [digitsVal, ih]

theorem padTo2_all_digits (l : List Char) (h : l.all isDigitChar = true) :
    (padTo2 l).all isDigitChar = true := by
  unfold padTo2
  split
  · exact h
  · simp only [List.all_append, h, Bool.and_true, List.all_eq_true]
    intro c hc
    rw [List.eq_of_mem_replicate hc]
    decide

theorem padTo2_ne_nil (l : List Char) (h : l ≠ []) : padTo2 l ≠ [] := by
  unfold padTo2
  split
  · exact h
  · simp only [ne_eq, List.append_eq_nil]
    rintro ⟨-, h2⟩
    exact h h2

theorem digitsVal_padTo2 (n : Nat) :
    digitsVal (((padTo2 (natToChars n)).map charVal).reverse) = n := by
  unfold padTo2
  split
  · exact digitsVal_natToChars n
  · have heq : ((List.replicate (2 - (natToChars n).length) '0' ++ natToChars n).map charVal).reverse
        = ((natToChars n).map charVal).reverse ++ List.replicate (2 - (natToChars n).length) 0 := by
      rw [List.map_append, List.reverse_append]
      congr 1
      rw [List.map_replicate, List.reverse_replicate]
      rfl
    rw [heq, digitsVal_append_zeros, digitsVal_natToChars]

theorem jsNumber_padTo2 (n : Nat) : jsNumber (padTo2 (natToChars n)) = some n := by
  unfold jsNumber
  rw [if_neg (by simpa [List.isEmpty_iff] using padTo2_ne_nil _ (natToChars_ne_nil n)),
      if_pos (padTo2_all_digits _ (natToChars_all_digits n)), digitsVal_padTo2]

theorem splitOnChar_ne_nil (sep : Char) (l : List Char) : splitOnChar sep l ≠ [] := by
  cases l with
  | nil => simp [splitOnChar]
  | cons c cs =>
    unfold splitOnChar
    cases splitOnChar sep cs with
    | nil => simp
    | cons r rs =>
      by_cases hc : c = sep <;> simp [hc]

theorem splitOnChar_of_not_mem (sep : Char) (l : List Char) (h : sep ∉ l) :
    splitOnChar sep l = [l] := by
  induction l with
  | nil => rfl
  | cons c cs ih =>
    have hc : ¬ c = sep := fun hcs => h (hcs ▸ List.mem_cons_self c cs)
    have hcs : sep ∉ cs := fun hm => h (List.mem_cons_of_mem c hm)
    unfold splitOnChar
    rw [ih hcs]
    simp [hc]

theorem splitOnChar_append (sep : Char) (A B : List Char) (h : sep ∉ A) :
    splitOnChar sep (A ++ sep :: B) = A :: splitOnChar sep B := by
  induction A with
  | nil =>
    cases hB : splitOnChar sep B with
    | nil => exact absurd hB (splitOnChar_ne_nil sep B)
    | cons r rs => simp [splitOnChar, hB]
  | cons c cs ih =>
    have hc : ¬ c = sep := fun hcs => h (hcs ▸ List.mem_cons_self c cs)
    have hcs : sep ∉ cs := fun hm => h (List.mem_cons_of_mem c hm)
    simp [splitOnChar, ih hcs, hc]

theorem not_mem_of_all_digits (l : List Char) (c : Char)
    (hl : l.all isDigitChar = true) (hc : isDigitChar c = false) : c ∉ l := by
  intro hm
  rw [List.all_eq_true] at hl
  have := hl c hm
  rw [hc] at this
  exact Bool.false_ne_true this

theorem colon_not_mem_padTo2_natToChars (n : Nat) : ':' ∉ padTo2 (natToChars n) :=
  not_mem_of_all_digits _ _ (padTo2_all_digits _ (natToChars_all_digits n)) (by decide)

/-- The Duration Codec round trip, in full: formatting a second count and
parsing it back yields the same duration expressed in minutes. -/
theorem parseChars_formatChars (d : Nat) :
    parseChars (formatChars d) = some ((d : Rat) / 60) := by
  by_cases hh : 0 < d / 3600
  · have hfmt : formatChars d
        = padTo2 (natToChars (d / 3600)) ++ ':' ::
          (padTo2 (natToChars (d % 3600 / 60)) ++ ':' :: padTo2 (natToChars (d % 60))) := by
      simp only [formatChars]
      rw [if_pos hh]
      simp [List.append_assoc]
    rw [hfmt]
    unfold parseChars
    rw [splitOnChar_append ':' _ _ (colon_not_mem_padTo2_natToChars _),
        splitOnChar_append ':' _ _ (colon_not_mem_padTo2_natToChars _),
        splitOnChar_of_not_mem ':' _ (colon_not_mem_padTo2_natToChars _)]
    simp only [List.map_cons, List.map_nil, jsNumber_padTo2]
    show some (((d / 3600 : Nat) : Rat) * 60 + ((d % 3600 / 60 : Nat) : Rat)
          + ((d % 60 : Nat) : Rat) / 60) = some ((d : Rat) / 60)
    congr 1
    obtain ⟨a, b, c, ha, hb, hc2, hd⟩ :
        ∃ a b c : Nat, a = d / 3600 ∧ b = d % 3600 / 60 ∧ c = d % 60
          ∧ d = 3600 * a + 60 * b + c :=
      ⟨_, _, _, rfl, rfl, rfl, by omega⟩
    rw [← ha, ← hb, ← hc2]
    conv_rhs => rw [hd]
    push_cast
    field_simp
    ring
  · have hfmt : formatChars d
        = padTo2 (natToChars (d % 3600 / 60)) ++ ':' :: padTo2 (natToChars (d % 60)) := by
      simp only [formatChars]
      rw [if_neg hh]
    rw [hfmt]
    unfold parseChars
    rw [splitOnChar_append ':' _ _ (colon_not_mem_padTo2_natToChars _),
        splitOnChar_of_not_mem ':' _ (colon_not_mem_padTo2_natToChars _)]
    simp only [List.map_cons, List.map_nil, jsNumber_padTo2]
    show some (((d % 3600 / 60 : Nat) : Rat) + ((d % 60 : Nat) : Rat) / 60)
          = some ((d : Rat) / 60)
    congr 1
    have h0 : d / 3600 = 0 := by omega
    obtain ⟨b, c, hb, hc2, hd⟩ :
        ∃ b c : Nat, b = d % 3600 / 60 ∧ c = d % 60 ∧ d = 60 * b + c :=
      ⟨_, _, rfl, rfl, by omega⟩
    rw [← hb, ← hc2]
    conv_rhs => rw [hd]
    push_cast
    field_simp
    ring

/-- The round trip at the `String` level. -/
theorem parse_formatTime (d : Nat) :
    parseDurationToMinutes (formatTime d) = some ((d : Rat) / 60) := by
  unfold parseDurationToMinutes formatTime
  exact parseChars_formatChars d

/-! ### Concrete fixtures (used by witnesses and counterexamples) -/

/-- Embeds `DEFAULT_SETTINGS` (src/App.tsx lines 13-27). -/
def DEFAULT_SETTINGS : Settings :=
  { durations := { pomodoro := 25, shortBreak := 5, longBreak := 15 }
    colors := { pomodoro := "#f43f5e", shortBreak := "#14b8a6", longBreak := "#3b82f6" }
    autoStartBreaks := false
    autoStartPomodoros := false
    dailyPomodoroTarget := 6 }

def sampleSubtaskA : Subtask :=
  { id := "t1", name := "reading", description := "", targetSessions := 4,
    completedSessions := 0, importance := .important, urgency := .emergent }

def sampleSubtaskB : Subtask :=
  { id := "t2", name := "exercises", description := "", targetSessions := 8,
    completedSessions := 2, importance := .notImportant, urgency := .notEmergent }

def sampleProject : Project :=
  { id := "p1", name := "calculus", description := "", createdAt := 0,
    isDaily := false, recurrenceEndDate := none,
    subtasks := [sampleSubtaskA, sampleSubtaskB] }

def dailySubtask : Subtask :=
  { id := "t3", name := "review", description := "", targetSessions := 2,
    completedSessions := 5, importance := .important, urgency := .notEmergent }

def dailyProject : Project :=
  { id := "p2", name := "vocabulary", description := "", createdAt := 0,
    isDaily := true, recurrenceEndDate := some 30, subtasks := [dailySubtask] }

def sampleHistory : List AppSessionLog :=
  [{ date := "04 December 2025", duration := "25:00",
     projectId := some "p2", subtaskId := some "t3" }]

def sampleState : AppState :=
  { projects := [sampleProject, dailyProject]
    appHistory := sampleHistory
    dayNotes := []
    dayAgendas := []
    selectedProjectId := some "p1"
    activeSubtaskId := some "t1"
    settings := DEFAULT_SETTINGS
    timerMode := .pomodoro
    timeLeft := 1500
    isActive := false
    pomoCount := 0 }

def activeSampleState : AppState :=
  { sampleState with isActive := true, timeLeft := 100 }

/-! ### Timer tick lemmas -/

theorem tick_timeLeft_le (st : AppState) : (tick st).timeLeft ≤ st.timeLeft := by
  unfold tick
  by_cases hc : st.isActive = true ∧ 0 < st.timeLeft
  · rw [if_pos hc]
    show st.timeLeft - 1 ≤ st.timeLeft
    omega
  · rw [if_neg hc]

theorem tick_timeLeft_nonneg (st : AppState) (h : 0 ≤ st.timeLeft) :
    0 ≤ (tick st).timeLeft := by
  unfold tick
  by_cases hc : st.isActive = true ∧ 0 < st.timeLeft
  · rw [if_pos hc]
    show (0 : Int) ≤ st.timeLeft - 1
    omega
  · rw [if_neg hc]
    exact h

theorem iterate_tick_le : ∀ (k : Nat) (st : AppState),
    (tick^[k] st).timeLeft ≤ st.timeLeft
  | 0, _ => le_refl _
  | k + 1, st => by
    rw [Function.iterate_succ_apply]
    exact le_trans (iterate_tick_le k (tick st)) (tick_timeLeft_le st)

theorem iterate_tick_nonneg : ∀ (k : Nat) (st : AppState),
    0 ≤ st.timeLeft → 0 ≤ (tick^[k] st).timeLeft
  | 0, _, h => h
  | k + 1, st, h => by
    rw [Function.iterate_succ_apply]
    exact iterate_tick_nonneg k (tick st) (tick_timeLeft_nonneg st h)

/-! ### Claim C4 -/

/-- C4 (amended): along any sequence of countdown ticks, `timeLeft` is
monotonically non-increasing and stays nonnegative when it starts
nonnegative; the settings input path clamps a non-numeric or zero entry
to 1 minute, and keeps any entry that is at least 1. (The original
claim's universal clamp fails for negative entries; see the
counterexample.) -/
theorem spec_c4_tick_monotone_nonneg :
    (∀ (st : AppState) (n m : Nat), n ≤ m →
        (tick^[m] st).timeLeft ≤ (tick^[n] st).timeLeft)
    ∧ (∀ (st : AppState) (n : Nat), 0 ≤ st.timeLeft → 0 ≤ (tick^[n] st).timeLeft)
    ∧ settingsDurationInput none = 1
    ∧ settingsDurationInput (some 0) = 1
    ∧ (∀ v : Int, 1 ≤ v → settingsDurationInput (some v) = v) := by
  refine ⟨?_, ?_, rfl, rfl, ?_⟩
  · intro st n m hnm
    obtain ⟨k, rfl⟩ : ∃ k, m = k + n := ⟨m - n, by omega⟩
    rw [Function.iterate_add_apply]
    exact iterate_tick_le k (tick^[n] st)
  · intro st n h
    exact iterate_tick_nonneg n st h
  · intro v hv
    show (if v = 0 then 1 else v) = v
    rw [if_neg (by omega)]

/-- Witness for C4 at a concrete active state. -/
theorem spec_c4_witness :
    (tick^[3] activeSampleState).timeLeft ≤ (tick^[1] activeSampleState).timeLeft
    ∧ 0 ≤ (tick^[3] activeSampleState).timeLeft
    ∧ settingsDurationInput (some 7) = 7 :=
  ⟨spec_c4_tick_monotone_nonneg.1 activeSampleState 1 3 (by decide),
   spec_c4_tick_monotone_nonneg.2.1 activeSampleState 3 (by decide),
   spec_c4_tick_monotone_nonneg.2.2.2.2 7 (by decide)⟩

/-- Counterexample for C4 as stated: a negative duration entry is not
clamped to a minimum of 1 minute (`parseInt(x) || 1` keeps `-5`), and the
re-derivation effect then drives `timeLeft` to a negative value. -/
theorem spec_c4_counterexample :
    settingsDurationInput (some (-5)) = -5
    ∧ (rederiveTimeLeft { sampleState with
        settings := { sampleState.settings with durations :=
          { sampleState.settings.durations with
              pomodoro := settingsDurationInput (some (-5)) } } }).timeLeft = -300
    ∧ ((-300 : Int) < 0) := by
  refine ⟨rfl, ?_, by decide⟩
  rfl

/-! ### Claim C5 -/

/-- C5 (amended): the Duration Codec round trip preserves the duration up
to the unit change built into the codec pair — `formatTime` consumes a
second count while the ledger parser returns minutes, so parsing the
formatted string yields exactly `d / 60` minutes, and scaling back by 60
recovers `d`. -/
theorem spec_c5_roundtrip_minutes (d : Nat) :
    ∃ q : Rat, parseDurationToMinutes (formatTime d) = some q
      ∧ 60 * q = (d : Rat) := by
  refine ⟨(d : Rat) / 60, parse_formatTime d, ?_⟩
  field_simp

/-- Counterexample for C5 as stated: at `d = 60` seconds the parse of the
formatted string is `1` (minute), not `60`, so `parse(format(d)) = d`
fails. -/
theorem spec_c5_counterexample :
    parseDurationToMinutes (formatTime 60) = some 1
    ∧ parseDurationToMinutes (formatTime 60) ≠ some ((60 : Rat)) := by
  have h := parse_formatTime 60
  constructor
  · rw [h]
    norm_num
  · rw [h]
    intro hc
    rw [Option.some.injEq] at hc
    norm_num at hc

/-! ### Claim C8 -/

/-- C8 (amended): changing a duration setting re-derives `timeLeft` as the
current mode's configured minutes times 60 immediately and
unconditionally — the effect has no `isActive` guard, so this holds while
the timer is inactive (as claimed) but also resets a running countdown
(contrary to the claim's second half; see the counterexample). Mode,
running flag and the new durations are otherwise preserved. -/
theorem spec_c8_duration_change_rederives (st : AppState) (d : Durations) :
    (changeDurations st d).timeLeft = durationFor d st.timerMode * 60
    ∧ (changeDurations st d).isActive = st.isActive
    ∧ (changeDurations st d).timerMode = st.timerMode
    ∧ (changeDurations st d).settings.durations = d := by
  refine ⟨?_, rfl, rfl, rfl⟩
  rfl

/-- Counterexample for C8 as stated: with the timer active at
`timeLeft = 100`, changing the pomodoro duration to 30 minutes resets the
running countdown to 1800 seconds instead of leaving it untouched. -/
theorem spec_c8_counterexample :
    activeSampleState.isActive = true
    ∧ activeSampleState.timeLeft = 100
    ∧ (changeDurations activeSampleState
        { pomodoro := 30, shortBreak := 5, longBreak := 15 }).timeLeft = 1800
    ∧ (changeDurations activeSampleState
        { pomodoro := 30, shortBreak := 5, longBreak := 15 }).timeLeft
        ≠ activeSampleState.timeLeft := by
  refine ⟨rfl, rfl, rfl, by decide⟩

/-! ### Claim C9 -/

/-- C9: importing a snapshot replaces exactly the top-level fields that
are present and leaves the absent ones unchanged; in particular a
snapshot without `settings` keeps the prior settings, while
`projects: []` (truthy in the source's check) replaces the project list
with the empty list. -/
theorem spec_c9_import_frame (st : AppState) (json : Snapshot) :
    (json.settings = none → (handleImport st json).settings = st.settings)
    ∧ (∀ s, json.settings = some s → (handleImport st json).settings = s)
    ∧ (json.projects = some [] → (handleImport st json).projects = [])
    ∧ (json.projects = none → (handleImport st json).projects = st.projects)
    ∧ (∀ ps, json.projects = some ps → (handleImport st json).projects = ps)
    ∧ (json.appHistory = none → (handleImport st json).appHistory = st.appHistory)
    ∧ (∀ h, json.appHistory = some h → (handleImport st json).appHistory = h)
    ∧ (json.dayNotes = none → (handleImport st json).dayNotes = st.dayNotes)
    ∧ (∀ n, json.dayNotes = some n → (handleImport st json).dayNotes = n)
    ∧ (json.dayAgendas = none → (handleImport st json).dayAgendas = st.dayAgendas)
    ∧ (∀ a, json.dayAgendas = some a → (handleImport st json).dayAgendas = a) := by
  obtain ⟨jp, jh, jn, ja, js⟩ := json
  cases jp <;> cases jh <;> cases jn <;> cases ja <;> cases js <;>
    simp [handleImport]

/-- Witness for C9: a snapshot with `projects: []` and no `settings`. -/
theorem spec_c9_witness :
    (handleImport sampleState
      { projects := some [], appHistory := none, dayNotes := none,
        dayAgendas := none, settings := none }).settings = sampleState.settings
    ∧ (handleImport sampleState
      { projects := some [], appHistory := none, dayNotes := none,
        dayAgendas := none, settings := none }).projects = [] :=
  ⟨(spec_c9_import_frame sampleState _).1 rfl,
   (spec_c9_import_frame sampleState _).2.2.1 rfl⟩

/-! ### Characterizations of `handleTimerComplete` -/

/-- The ledger record (`newLog` in src/App.tsx lines 131-136) that a
pomodoro completion appends: today's label, the configured pomodoro
duration rendered by the Duration Codec, and the active ids. -/
def newLog (st : AppState) (todayStr : String) : AppSessionLog :=
  { date := todayStr
    duration := formatTime (st.settings.durations.pomodoro * 60).toNat
    projectId := st.selectedProjectId
    subtaskId := st.activeSubtaskId }

theorem handleTimerComplete_pomodoro (st : AppState) (todayStr : String)
    (h : st.timerMode = .pomodoro) :
    handleTimerComplete todayStr st =
      { st with
          isActive := st.settings.autoStartBreaks
          pomoCount := st.pomoCount + 1
          appHistory := st.appHistory ++ [newLog st todayStr]
          projects :=
            (match st.activeSubtaskId, st.selectedProjectId with
             | some tid, some pid => updateSubtaskProgress pid tid st.projects
             | _, _ => st.projects)
          timerMode := if (st.pomoCount + 1) % 4 = 0 then .longBreak else .shortBreak
          timeLeft := if (st.pomoCount + 1) % 4 = 0 then st.settings.durations.longBreak * 60
                      else st.settings.durations.shortBreak * 60 } := by
  cases hA : st.activeSubtaskId <;> cases hS : st.selectedProjectId <;>
    by_cases h4 : (st.pomoCount + 1) % 4 = 0 <;>
      simp [handleTimerComplete, newLog, h, hA, hS, h4]

theorem handleTimerComplete_break (st : AppState) (todayStr : String)
    (h : st.timerMode ≠ .pomodoro) :
    handleTimerComplete todayStr st =
      { st with
          isActive := st.settings.autoStartPomodoros
          timerMode := .pomodoro
          timeLeft := st.settings.durations.pomodoro * 60 } := by
  cases hm : st.timerMode
  · exact absurd hm h
  · simp [handleTimerComplete, hm]
  · simp [handleTimerComplete, hm]

/-! ### Claim C2 -/

/-- C2: completing from `pomodoro` increments the session counter and
transitions to `long_break` exactly when the new counter is divisible by
4 (with the corresponding configured break duration, in seconds); from
either break, completing always returns to `pomodoro` with the
configured pomodoro duration in seconds. -/
theorem spec_c2_complete_transitions (st : AppState) (todayStr : String) :
    (st.timerMode = .pomodoro →
      (handleTimerComplete todayStr st).pomoCount = st.pomoCount + 1
      ∧ ((handleTimerComplete todayStr st).timerMode = .longBreak
          ↔ (st.pomoCount + 1) % 4 = 0)
      ∧ ((st.pomoCount + 1) % 4 = 0 →
          (handleTimerComplete todayStr st).timeLeft
            = st.settings.durations.longBreak * 60)
      ∧ ((st.pomoCount + 1) % 4 ≠ 0 →
          (handleTimerComplete todayStr st).timerMode = .shortBreak
          ∧ (handleTimerComplete todayStr st).timeLeft
              = st.settings.durations.shortBreak * 60))
    ∧ (st.timerMode ≠ .pomodoro →
        (handleTimerComplete todayStr st).timerMode = .pomodoro
        ∧ (handleTimerComplete todayStr st).timeLeft
            = st.settings.durations.pomodoro * 60) := by
  constructor
  · intro h
    rw [handleTimerComplete_pomodoro st todayStr h]
    by_cases h4 : (st.pomoCount + 1) % 4 = 0 <;> simp [h4]
  · intro h
    rw [handleTimerComplete_break st todayStr h]
    exact ⟨rfl, rfl⟩

/-- Witness for C2 at concrete states: a completion from `pomodoro` with
counter 3 reaches `long_break`, and a completion from a break returns to
`pomodoro`. -/
theorem spec_c2_witness :
    (handleTimerComplete "04 December 2025"
        { sampleState with pomoCount := 3 }).pomoCount = 4
    ∧ (handleTimerComplete "04 December 2025"
        { sampleState with pomoCount := 3 }).timerMode = .longBreak
    ∧ (handleTimerComplete "04 December 2025"
        { sampleState with pomoCount := 3 }).timeLeft = 900
    ∧ (handleTimerComplete "04 December 2025"
        { sampleState with timerMode := .shortBreak }).timerMode = .pomodoro
    ∧ (handleTimerComplete "04 December 2025"
        { sampleState with timerMode := .shortBreak }).timeLeft = 1500 := by
  have h1 := (spec_c2_complete_transitions
    { sampleState with pomoCount := 3 } "04 December 2025").1 (by decide)
  have h2 := (spec_c2_complete_transitions
    { sampleState with timerMode := .shortBreak } "04 December 2025").2 (by decide)
  refine ⟨h1.1, h1.2.1.mpr (by decide), ?_, h2.1, h2.2⟩
  have := h1.2.2.1 (by decide)
  simpa using this

/-! ### Claim C3 -/

/-- C3: in `pomodoro` mode with an active project and subtask selected, a
skip — whatever `timeLeft` holds — appends exactly one ledger entry
(today's label, the configured pomodoro duration, the active ids),
increments exactly the matching subtask's `completedSessions` by one with
all of its other fields kept, and leaves every other subtask and project
untouched. -/
theorem spec_c3_skip_full_credit (st : AppState) (todayStr pid tid : String)
    (hm : st.timerMode = .pomodoro) (hp : st.selectedProjectId = some pid)
    (ht : st.activeSubtaskId = some tid) :
    (skipTimer todayStr st).appHistory
      = st.appHistory ++ [{ date := todayStr,
                            duration := formatTime (st.settings.durations.pomodoro * 60).toNat,
                            projectId := some pid, subtaskId := some tid }]
    ∧ List.Forall₂ (fun p q =>
        (p.id ≠ pid → q = p)
        ∧ (p.id = pid →
            List.Forall₂ (fun t u =>
              (t.id ≠ tid → u = t)
              ∧ (t.id = tid → u.completedSessions = t.completedSessions + 1
                  ∧ u.targetSessions = t.targetSessions ∧ u.id = t.id
                  ∧ u.name = t.name ∧ u.importance = t.importance
                  ∧ u.urgency = t.urgency))
              p.subtasks q.subtasks))
        st.projects (skipTimer todayStr st).projects
    ∧ (∀ v : Int,
        (skipTimer todayStr { st with timeLeft := v }).appHistory
          = (skipTimer todayStr st).appHistory
        ∧ (skipTimer todayStr { st with timeLeft := v }).projects
          = (skipTimer todayStr st).projects) := by
  have hskip : ∀ v : Int, skipTimer todayStr { st with timeLeft := v } =
      { ({ st with timeLeft := v } : AppState) with
          isActive := st.settings.autoStartBreaks
          pomoCount := st.pomoCount + 1
          appHistory := st.appHistory ++ [newLog st todayStr]
          projects := updateSubtaskProgress pid tid st.projects
          timerMode := if (st.pomoCount + 1) % 4 = 0 then .longBreak else .shortBreak
          timeLeft := if (st.pomoCount + 1) % 4 = 0 then st.settings.durations.longBreak * 60
                      else st.settings.durations.shortBreak * 60 } := by
    intro v
    unfold skipTimer
    rw [handleTimerComplete_pomodoro _ _ (by simpa using hm)]
    simp [newLog, hp, ht]
  have hmain : skipTimer todayStr st =
      { st with
          isActive := st.settings.autoStartBreaks
          pomoCount := st.pomoCount + 1
          appHistory := st.appHistory ++ [newLog st todayStr]
          projects := updateSubtaskProgress pid tid st.projects
          timerMode := if (st.pomoCount + 1) % 4 = 0 then .longBreak else .shortBreak
          timeLeft := if (st.pomoCount + 1) % 4 = 0 then st.settings.durations.longBreak * 60
                      else st.settings.durations.shortBreak * 60 } := by
    unfold skipTimer
    rw [handleTimerComplete_pomodoro _ _ (by simpa using hm)]
    simp [newLog, hp, ht]
  refine ⟨?_, ?_, ?_⟩
  · rw [hmain]
    simp [newLog, hp, ht]
  · rw [hmain]
    show List.Forall₂ _ st.projects (updateSubtaskProgress pid tid st.projects)
    unfold updateSubtaskProgress
    rw [List.forall₂_map_right_iff]
    rw [List.forall₂_same]
    intro p hp2
    by_cases hid : p.id = pid
    · refine ⟨fun hne => absurd hid hne, fun _ => ?_⟩
      rw [if_neg (by simpa using hid)]
      rw [List.forall₂_map_right_iff, List.forall₂_same]
      intro t ht2
      by_cases htid : t.id = tid
      · refine ⟨fun hne => absurd htid hne, fun _ => ?_⟩
        rw [if_neg (by simpa using htid)]
        exact ⟨rfl, rfl, rfl, rfl, rfl, rfl⟩
      · refine ⟨fun _ => ?_, fun heq => absurd heq htid⟩
        rw [if_pos (by simpa using htid)]
    · refine ⟨fun _ => ?_, fun heq => absurd heq hid⟩
      rw [if_pos (by simpa using hid)]
  · intro v
    rw [hskip v, hmain]
    exact ⟨rfl, rfl⟩

/-- Witness for C3 at the sample state (pomodoro mode, project `p1`,
subtask `t1` active, 25-minute pomodoro). -/
theorem spec_c3_witness :
    (skipTimer "05 December 2025" sampleState).appHistory
      = sampleState.appHistory
        ++ [{ date := "05 December 2025", duration := formatTime ((25 : Int) * 60).toNat,
              projectId := some "p1", subtaskId := some "t1" }]
    ∧ (skipTimer "05 December 2025" { sampleState with timeLeft := 900 }).appHistory
      = (skipTimer "05 December 2025" sampleState).appHistory :=
  ⟨(spec_c3_skip_full_credit sampleState "05 December 2025" "p1" "t1"
      rfl rfl rfl).1,
   ((spec_c3_skip_full_credit sampleState "05 December 2025" "p1" "t1"
      rfl rfl rfl).2.2 900).1⟩

/-! ### Claim C1 -/

/-- C1: for a daily-recurring project with per-day target
`G = sumTargets`, where done-counts come from exact ledger matching on
project id and date label: a date strictly before today with fewer than
`G` matching entries is `failed`; a date on or before today with at least
`G` matching entries is `success`; a date strictly after today is
`pending`; and today with fewer than `G` entries is `pending`, not
`failed`. -/
theorem spec_c1_daily_status (p : Project) (history : List AppSessionLog)
    (label : Int → String) (d today : Int) :
    (d < today →
      (getDailyProjectCompletion p.id (label d) history : Int) < sumTargets p.subtasks →
      dayStatus d today (getDailyProjectCompletion p.id (label d) history)
        (sumTargets p.subtasks) = .failed)
    ∧ (d ≤ today →
        (getDailyProjectCompletion p.id (label d) history : Int) ≥ sumTargets p.subtasks →
        dayStatus d today (getDailyProjectCompletion p.id (label d) history)
          (sumTargets p.subtasks) = .success)
    ∧ (today < d →
        dayStatus d today (getDailyProjectCompletion p.id (label d) history)
          (sumTargets p.subtasks) = .pending)
    ∧ (d = today →
        (getDailyProjectCompletion p.id (label d) history : Int) < sumTargets p.subtasks →
        dayStatus d today (getDailyProjectCompletion p.id (label d) history)
          (sumTargets p.subtasks) = .pending) := by
  refine ⟨?_, ?_, ?_, ?_⟩
  · intro h1 h2
    unfold dayStatus
    rw [if_pos (le_of_lt h1), if_neg (not_le.mpr h2), if_pos h1]
  · intro h1 h2
    unfold dayStatus
    rw [if_pos h1, if_pos h2]
  · intro h1
    unfold dayStatus
    rw [if_neg (not_le.mpr h1)]
  · intro h1 h2
    subst h1
    unfold dayStatus
    rw [if_pos le_rfl, if_neg (not_le.mpr h2), if_neg (lt_irrefl d)]

/-- Witness for C1 on the daily fixture: on the labelled day the ledger
holds 1 matching entry against a target of 2, so that day is `failed`
when strictly past and `pending` when it is today. -/
theorem spec_c1_witness :
    dayStatus 0 1 (getDailyProjectCompletion dailyProject.id "04 December 2025" sampleHistory)
      (sumTargets dailyProject.subtasks) = .failed
    ∧ dayStatus 0 0 (getDailyProjectCompletion dailyProject.id "04 December 2025" sampleHistory)
      (sumTargets dailyProject.subtasks) = .pending :=
  ⟨(spec_c1_daily_status dailyProject sampleHistory
      (fun _ => "04 December 2025") 0 1).1 (by decide) (by decide),
   ((spec_c1_daily_status dailyProject sampleHistory
      (fun _ => "04 December 2025") 0 0).2.2.2) rfl (by decide)⟩

/-! ### Counter monotonicity infrastructure (claim C10) -/

/-- Pairwise comparison of two project lists: every subtask's stored
`completedSessions` on the right is at least the one on the left. -/
def completedMono (ps qs : List Project) : Prop :=
  List.Forall₂ (fun p q =>
    List.Forall₂ (fun t u => t.completedSessions ≤ u.completedSessions)
      p.subtasks q.subtasks) ps qs

theorem subtasks_mono_refl (l : List Subtask) :
    List.Forall₂ (fun t u => t.completedSessions ≤ u.completedSessions) l l :=
  List.forall₂_same.2 fun _ _ => le_refl _

theorem completedMono_refl (ps : List Project) : completedMono ps ps :=
  List.forall₂_same.2 fun p _ => subtasks_mono_refl p.subtasks

theorem completedMono_updateSubtaskProgress (pid tid : String) (ps : List Project) :
    completedMono ps (updateSubtaskProgress pid tid ps) := by
  unfold completedMono updateSubtaskProgress
  rw [List.forall₂_map_right_iff, List.forall₂_same]
  intro p _
  by_cases hid : p.id = pid
  · rw [if_neg (by simpa using hid)]
    show List.Forall₂ _ p.subtasks (p.subtasks.map _)
    rw [List.forall₂_map_right_iff, List.forall₂_same]
    intro t _
    by_cases htid : t.id = tid
    · rw [if_neg (by simpa using htid)]
      show t.completedSessions ≤ t.completedSessions + 1
      omega
    · rw [if_pos (by simpa using htid)]
  · rw [if_pos (by simpa using hid)]
    exact subtasks_mono_refl p.subtasks

theorem completedMono_handleTimerComplete (st : AppState) (todayStr : String) :
    completedMono st.projects (handleTimerComplete todayStr st).projects := by
  by_cases hm : st.timerMode = .pomodoro
  · rw [handleTimerComplete_pomodoro st todayStr hm]
    cases hA : st.activeSubtaskId <;> cases hS : st.selectedProjectId <;>
      first
      | exact completedMono_refl st.projects
      | exact completedMono_updateSubtaskProgress _ _ st.projects
  · rw [handleTimerComplete_break st todayStr hm]
    exact completedMono_refl st.projects

theorem sumTargets_zeroed (l : List Subtask) :
    sumTargets (l.map fun t => { t with completedSessions := 0 }) = sumTargets l := by
  unfold sumTargets
  rw [List.map_map]
  rfl

/-! ### Claim C10 -/

/-- Embeds the per-subtask completion figure of the GanttChart row
(src/unnamed/part_000 lines 43-52): `completed` starts as the stored
counter, but for a daily project it is replaced by the number of ledger
entries whose `subtaskId` and `date` match the subtask and today's
label exactly. -/
def ganttChartCompleted (isDaily : Bool) (task : Subtask) (todayStr : String)
    (history : List AppSessionLog) : Int :=
  if isDaily then
    ((history.filter (fun l => l.subtaskId = some task.id ∧ l.date = todayStr)).length : Int)
  else task.completedSessions

/-- The `{ totalSessions, completedSessions }` object built for each
sidebar project row (src/App.tsx lines 437-446). -/
structure SidebarStats where
  totalSessions : Int
  completedSessions : Int
deriving DecidableEq, Repr

/-- Embeds the sidebar stats computation (src/App.tsx lines 437-446):
a daily project shows today's ledger-derived count against the summed
targets; a standard project shows the stored counters via
`calculateProjectStats`. -/
def sidebarStats (project : Project) (todayStr : String)
    (history : List AppSessionLog) : SidebarStats :=
  if project.isDaily then
    { totalSessions := sumTargets project.subtasks
      completedSessions := (getDailyProjectCompletion project.id todayStr history : Int) }
  else
    { totalSessions := (calculateProjectStats project.subtasks).totalSessions
      completedSessions := (calculateProjectStats project.subtasks).completedSessions }

/-- C10 (implicit): a pomodoro completion with an active subtask bumps
that subtask's stored `completedSessions` by one even when the project is
daily-recurring (the daily flag is preserved and never consulted); no
embedded core operation ever decreases a stored counter, so the counter
accumulates monotonically for the process lifetime; and every per-day
figure shown for a daily project — the selected-project stats, the
GanttChart subtask row, and the sidebar row — is derived from the ledger
count for today's label instead of the stored counter: each equals the
exact-match ledger count and is unchanged if the stored counters are
zeroed or replaced. (The calendar's per-day `done` figure is
`getDailyProjectCompletion` itself, settled by C1.) -/
theorem spec_c10_stored_counters :
    (∀ (st : AppState) (todayStr pid tid : String),
      st.timerMode = .pomodoro →
      st.selectedProjectId = some pid → st.activeSubtaskId = some tid →
      List.Forall₂ (fun p q => q.isDaily = p.isDaily ∧ (p.id = pid →
          List.Forall₂ (fun t u => t.id = tid →
              u.completedSessions = t.completedSessions + 1)
            p.subtasks q.subtasks))
        st.projects (handleTimerComplete todayStr st).projects)
    ∧ (∀ (st : AppState) (todayStr : String),
        completedMono st.projects (handleTimerComplete todayStr st).projects)
    ∧ (∀ (st : AppState) (todayStr : String),
        completedMono st.projects (skipTimer todayStr st).projects)
    ∧ (∀ (pid tid : String) (inc : Int) (ps : List Project),
        completedMono ps (updateSessionTarget pid tid inc ps))
    ∧ (∀ (tid nm ds : String) (target : Int) (imp : Importance) (urg : Urgency)
        (ps : List Project),
        completedMono ps (handleUpdateSubtask tid nm ds target imp urg ps))
    ∧ (∀ st : AppState, (tick st).projects = st.projects)
    ∧ (∀ (st : AppState) (d : Durations), (changeDurations st d).projects = st.projects)
    ∧ (∀ (p : Project) (todayStr : String) (hist : List AppSessionLog),
        p.isDaily = true →
        (selectedProjectStats p todayStr hist).completedSessions
            = (getDailyProjectCompletion p.id todayStr hist : Int)
        ∧ (selectedProjectStats p todayStr hist).totalSessions = sumTargets p.subtasks
        ∧ selectedProjectStats p todayStr hist
            = selectedProjectStats
                { p with subtasks := p.subtasks.map (fun t => { t with completedSessions := 0 }) }
                todayStr hist)
    ∧ (∀ (task : Subtask) (todayStr : String) (hist : List AppSessionLog) (c : Int),
        ganttChartCompleted true task todayStr hist
            = ((hist.filter (fun l => l.subtaskId = some task.id ∧ l.date = todayStr)).length : Int)
        ∧ ganttChartCompleted true { task with completedSessions := c } todayStr hist
            = ganttChartCompleted true task todayStr hist
        ∧ ganttChartCompleted false task todayStr hist = task.completedSessions)
    ∧ (∀ (p : Project) (todayStr : String) (hist : List AppSessionLog),
        p.isDaily = true →
        (sidebarStats p todayStr hist).completedSessions
            = (getDailyProjectCompletion p.id todayStr hist : Int)
        ∧ (sidebarStats p todayStr hist).totalSessions = sumTargets p.subtasks
        ∧ sidebarStats p todayStr hist
            = sidebarStats
                { p with subtasks := p.subtasks.map (fun t => { t with completedSessions := 0 }) }
                todayStr hist) := by
  refine ⟨?_, completedMono_handleTimerComplete, ?_, ?_, ?_, ?_, ?_, ?_, ?_, ?_⟩
  · intro st todayStr pid tid hm hp ht
    rw [handleTimerComplete_pomodoro st todayStr hm]
    show List.Forall₂ _ st.projects
      (match st.activeSubtaskId, st.selectedProjectId with
       | some tid2, some pid2 => updateSubtaskProgress pid2 tid2 st.projects
       | _, _ => st.projects)
    rw [ht, hp]
    show List.Forall₂ _ st.projects (updateSubtaskProgress pid tid st.projects)
    unfold updateSubtaskProgress
    rw [List.forall₂_map_right_iff, List.forall₂_same]
    intro p _
    by_cases hid : p.id = pid
    · rw [if_neg (by simpa using hid)]
      refine ⟨rfl, fun _ => ?_⟩
      rw [List.forall₂_map_right_iff, List.forall₂_same]
      intro t _
      intro htid
      rw [if_neg (by simpa using htid)]
    · rw [if_pos (by simpa using hid)]
      exact ⟨rfl, fun heq => absurd heq hid⟩
  · intro st todayStr
    unfold skipTimer
    exact completedMono_handleTimerComplete { st with isActive := false } todayStr
  · intro pid tid inc ps
    unfold completedMono updateSessionTarget
    rw [List.forall₂_map_right_iff, List.forall₂_same]
    intro p _
    by_cases hid : p.id = pid
    · rw [if_neg (by simpa using hid)]
      show List.Forall₂ _ p.subtasks (p.subtasks.map _)
      rw [List.forall₂_map_right_iff, List.forall₂_same]
      intro t _
      by_cases htid : t.id = tid
      · rw [if_neg (by simpa using htid)]
      · rw [if_pos (by simpa using htid)]
    · rw [if_pos (by simpa using hid)]
      exact subtasks_mono_refl p.subtasks
  · intro tid nm ds target imp urg ps
    unfold completedMono handleUpdateSubtask
    rw [List.forall₂_map_right_iff, List.forall₂_same]
    intro p _
    by_cases hany : p.subtasks.any (fun t => t.id = tid)
    · rw [if_neg (by simpa using hany)]
      show List.Forall₂ _ p.subtasks (p.subtasks.map _)
      rw [List.forall₂_map_right_iff, List.forall₂_same]
      intro t _
      by_cases htid : t.id = tid
      · rw [if_pos (by simpa using htid)]
      · rw [if_neg (by simpa using htid)]
    · rw [if_pos (by simpa using hany)]
      exact subtasks_mono_refl p.subtasks
  · intro st
    unfold tick
    by_cases hc : st.isActive = true ∧ 0 < st.timeLeft
    · rw [if_pos hc]
    · rw [if_neg hc]
  · intro st d
    rfl
  · intro p todayStr hist hdaily
    refine ⟨?_, ?_, ?_⟩
    · simp [selectedProjectStats, hdaily]
    · simp [selectedProjectStats, hdaily]
    · simp [selectedProjectStats, hdaily, sumTargets_zeroed]
  · intro task todayStr hist c
    refine ⟨rfl, ?_, rfl⟩
    simp [ganttChartCompleted]
  · intro p todayStr hist hdaily
    refine ⟨?_, ?_, ?_⟩
    · simp [sidebarStats, hdaily]
    · simp [sidebarStats, hdaily]
    · simp [sidebarStats, hdaily, sumTargets_zeroed]

/-- Witness for C10: skipping at the sample state (whose active project
is the standard one) and the daily fixture's ledger-derived per-day
figures in the selected-project stats, the GanttChart row and the
sidebar row. -/
theorem spec_c10_witness :
    completedMono sampleState.projects
      (skipTimer "05 December 2025" sampleState).projects
    ∧ (selectedProjectStats dailyProject "04 December 2025" sampleHistory).completedSessions
        = (getDailyProjectCompletion dailyProject.id "04 December 2025" sampleHistory : Int)
    ∧ ganttChartCompleted true { dailySubtask with completedSessions := 99 }
        "04 December 2025" sampleHistory
        = ganttChartCompleted true dailySubtask "04 December 2025" sampleHistory
    ∧ (sidebarStats dailyProject "04 December 2025" sampleHistory).completedSessions
        = (getDailyProjectCompletion dailyProject.id "04 December 2025" sampleHistory : Int) :=
  ⟨spec_c10_stored_counters.2.2.1 sampleState "05 December 2025",
   (spec_c10_stored_counters.2.2.2.2.2.2.2.1 dailyProject "04 December 2025"
      sampleHistory rfl).1,
   (spec_c10_stored_counters.2.2.2.2.2.2.2.2.1 dailySubtask "04 December 2025"
      sampleHistory 99).2.1,
   (spec_c10_stored_counters.2.2.2.2.2.2.2.2.2 dailyProject "04 December 2025"
      sampleHistory rfl).1⟩

/-! ### Claim C6 -/

theorem jsCeilDiv_pos (a b : Int) (ha : 1 ≤ a) (hb : 1 ≤ b) : 1 ≤ jsCeilDiv a b := by
  unfold jsCeilDiv
  rw [Int.fdiv_eq_ediv (-a) (by omega)]
  have h2 : (-a) / b < 0 := Int.ediv_neg' (by omega) (by omega)
  omega

/-- A non-daily project with no subtasks (reachable by creating a project
with no named subtasks, or by deleting them all). -/
def emptyProject : Project :=
  { id := "p3", name := "notes", description := "", createdAt := 5,
    isDaily := false, recurrenceEndDate := none, subtasks := [] }

/-- C6 (amended): with a positive daily target T, the calendar projection
gives span `ceil(S / T)` whenever the summed target S is at least 1, the
Gantt timeline-range span agrees with it there, and the calendar span is
always at least one day because a non-positive S is replaced by 1 before
dividing; in the scenario of the claim (targets 4 and 8, T = 6) both
spans are 2 days. (The Gantt timeline-range computation lacks the
`S = 0 → 1` guard, so its span can be zero-length; see the
counterexample.) -/
theorem spec_c6_projected_span :
    (∀ (l : List Subtask) (T : Int), 1 ≤ T →
      (1 ≤ sumTargets l →
        calendarSpanDays l T = jsCeilDiv (sumTargets l) T
        ∧ ganttSpanDays l T = jsCeilDiv (sumTargets l) T)
      ∧ (sumTargets l ≤ 0 → calendarSpanDays l T = jsCeilDiv 1 T)
      ∧ 1 ≤ calendarSpanDays l T)
    ∧ calendarSpanDays sampleProject.subtasks 6 = 2
    ∧ ganttSpanDays sampleProject.subtasks 6 = 2 := by
  refine ⟨?_, by decide, by decide⟩
  intro l T hT
  refine ⟨?_, ?_, ?_⟩
  · intro hS
    constructor
    · simp only [calendarSpanDays]
      rw [if_neg (by omega)]
    · rfl
  · intro hS
    simp only [calendarSpanDays]
    rw [if_pos hS]
  · by_cases hS : sumTargets l ≤ 0
    · simp only [calendarSpanDays]
      rw [if_pos hS]
      exact jsCeilDiv_pos 1 T le_rfl hT
    · simp only [calendarSpanDays]
      rw [if_neg hS]
      exact jsCeilDiv_pos _ T (by omega) hT

/-- Witness for C6 at the sample fixture (summed targets 12, T = 6). -/
theorem spec_c6_witness :
    calendarSpanDays sampleProject.subtasks 6
      = jsCeilDiv (sumTargets sampleProject.subtasks) 6
    ∧ 1 ≤ calendarSpanDays sampleProject.subtasks 6 :=
  ⟨((spec_c6_projected_span.1 sampleProject.subtasks 6 (by decide)).1 (by decide)).1,
   (spec_c6_projected_span.1 sampleProject.subtasks 6 (by decide)).2.2⟩

/-- Counterexample for C6 as stated: for a non-daily project whose
subtask targets sum to 0, the Gantt timeline-range span is zero-length —
the `S = 0 → 1` guard exists only in the calendar branch. -/
theorem spec_c6_counterexample :
    sumTargets emptyProject.subtasks = 0
    ∧ ganttSpanDays emptyProject.subtasks 6 = 0
    ∧ ¬ 1 ≤ ganttSpanDays emptyProject.subtasks 6
    ∧ calendarSpanDays emptyProject.subtasks 6 = 1 := by
  refine ⟨rfl, rfl, by decide, rfl⟩

/-! ### Date-label lemmas (claim C7) -/

theorem toDigitsAux_length_le : ∀ (fuel n k : Nat), n ≤ fuel → n < 10 ^ k →
    (toDigitsAux fuel n).length ≤ k := by
  intro fuel
  induction fuel with
  | zero =>
    intro n k h _
    have h0 : n = 0 := by omega
    subst h0
    simp [toDigitsAux]
  | succ fuel ih =>
    intro n k h hk
    by_cases h0 : n = 0
    · subst h0; simp [toDigitsAux]
    · have hkpos : 0 < k := by
        by_contra hc
        have : k = 0 := by omega
        subst this
        simp at hk
        omega
      obtain ⟨j, rfl⟩ : ∃ j, k = j + 1 := ⟨k - 1, by omega⟩
      simp only [toDigitsAux, h0, if_false, List.length_cons]
      have hdivfuel : n / 10 ≤ fuel := by omega
      have hdivpow : n / 10 < 10 ^ j := by
        rw [Nat.div_lt_iff_lt_mul (by norm_num)]
        calc n < 10 ^ (j + 1) := hk
        _ = 10 ^ j * 10 := by ring
      have := ih (n / 10) j hdivfuel hdivpow
      omega

theorem natToChars_length_le_two (n : Nat) (h : n < 100) :
    (natToChars n).length ≤ 2 := by
  unfold natToChars
  by_cases h0 : n = 0
  · simp [h0]
  · simp only [h0, if_false, List.length_reverse, List.length_map]
    exact toDigitsAux_length_le n n 2 le_rfl (by omega)

theorem padTo2_length (l : List Char) (h : l.length ≤ 2) :
    (padTo2 l).length = 2 := by
  unfold padTo2
  split
  · omega
  · simp only [List.length_append, List.length_replicate]
    omega

theorem jsParseInt_padTo2 (n : Nat) : jsParseInt (padTo2 (natToChars n)) = some n := by
  simp only [jsParseInt]
  rw [List.takeWhile_eq_self_iff.mpr
    (by simpa [List.all_eq_true] using padTo2_all_digits _ (natToChars_all_digits n))]
  rw [if_neg (by simpa [List.isEmpty_iff] using padTo2_ne_nil _ (natToChars_ne_nil n)),
      digitsVal_padTo2]

theorem space_not_digit : isDigitChar ' ' = false := by decide

theorem space_not_mem_padTo2_natToChars (n : Nat) : ' ' ∉ padTo2 (natToChars n) :=
  not_mem_of_all_digits _ _ (padTo2_all_digits _ (natToChars_all_digits n)) space_not_digit

theorem space_not_mem_natToChars (n : Nat) : ' ' ∉ natToChars n :=
  not_mem_of_all_digits _ _ (natToChars_all_digits n) space_not_digit

theorem month_tables (m : Nat) (hm : m < 12) :
    ' ' ∉ (monthNames.getD m "").data
    ∧ lookupMonth monthFulls ((monthNames.getD m "").data) = some (m : Int)
    ∧ ' ' ∉ ((monthAbbrevs.getD m ("", 0)).1).data
    ∧ ((monthAbbrevs.getD m ("", 0)).1).data.length = 3
    ∧ lookupMonth monthAbbrevs (((monthAbbrevs.getD m ("", 0)).1).data) = some (m : Int) := by
  interval_cases m <;>
    exact ⟨by decide, by decide, by decide, by decide, by decide⟩

theorem jsDateOfString_long (dayC yC name : List Char) (idx : Int) (dval yval : Nat)
    (hdall : dayC.all isDigitChar = true) (hdne : dayC ≠ [])
    (hyall : yC.all isDigitChar = true) (hyne : yC ≠ [])
    (hname : ' ' ∉ name)
    (hlook : lookupMonth monthFulls name = some idx)
    (hdn : jsNumber dayC = some dval) (hyn : jsNumber yC = some yval) :
    jsDateOfString (dayC ++ ' ' :: (name ++ ' ' :: yC))
      = .valid (yval : Int) idx (dval : Int) := by
  unfold jsDateOfString
  rw [splitOnChar_append ' ' _ _ (not_mem_of_all_digits _ _ hdall space_not_digit),
      splitOnChar_append ' ' _ _ hname,
      splitOnChar_of_not_mem ' ' _ (not_mem_of_all_digits _ _ hyall space_not_digit)]
  have hd2 : dayC.isEmpty = false := by
    cases dayC with
    | nil => exact absurd rfl hdne
    | cons a l => rfl
  have hy2 : yC.isEmpty = false := by
    cases yC with
    | nil => exact absurd rfl hyne
    | cons a l => rfl
  simp only [hdn, hlook, hyn, hd2, hy2]
  simp

theorem parseDate_longLabel (d m y : Nat) (hm : m < 12) :
    parseDate (longLabel d m y) = .valid (y : Int) (m : Int) (d : Int) := by
  obtain ⟨hname, hlook, -, -, -⟩ := month_tables m hm
  have hlong : jsDateOfString (longLabel d m y) = .valid (y : Int) (m : Int) (d : Int) := by
    unfold longLabel
    exact jsDateOfString_long _ _ _ _ d y
      (padTo2_all_digits _ (natToChars_all_digits d))
      (padTo2_ne_nil _ (natToChars_ne_nil d))
      (natToChars_all_digits y) (natToChars_ne_nil y)
      hname hlook (jsNumber_padTo2 d) (jsNumber_natToChars y)
  unfold parseDate
  rw [hlong]

theorem parseDate_compactLabel (d m y2 : Nat) (hm : m < 12) (hd : d < 100) :
    parseDate (compactLabel d m y2) = .valid (2000 + (y2 : Int)) (m : Int) (d : Int) := by
  obtain ⟨-, -, habbrsp, habbrlen, habbrlook⟩ := month_tables m hm
  have hPlen : (padTo2 (natToChars d)).length = 2 :=
    padTo2_length _ (natToChars_length_le_two d hd)
  have hnospace : ' ' ∉ compactLabel d m y2 := by
    unfold compactLabel
    simp only [List.mem_append, not_or]
    exact ⟨space_not_mem_padTo2_natToChars d, habbrsp, space_not_mem_padTo2_natToChars y2⟩
  have hinv : jsDateOfString (compactLabel d m y2) = .invalid := by
    unfold jsDateOfString
    rw [splitOnChar_of_not_mem ' ' _ hnospace]
  have htake2 : (compactLabel d m y2).take 2 = padTo2 (natToChars d) := by
    unfold compactLabel
    rw [← hPlen, List.take_left]
  have hdrop2 : (compactLabel d m y2).drop 2
      = ((monthAbbrevs.getD m ("", 0)).1).data ++ padTo2 (natToChars y2) := by
    unfold compactLabel
    rw [← hPlen, List.drop_left]
  have htake3 : ((compactLabel d m y2).drop 2).take 3
      = ((monthAbbrevs.getD m ("", 0)).1).data := by
    rw [hdrop2, ← habbrlen, List.take_left]
  have hdrop5 : (compactLabel d m y2).drop 5 = padTo2 (natToChars y2) := by
    have hsplit5 : (compactLabel d m y2).drop 5 = ((compactLabel d m y2).drop 2).drop 3 := by
      rw [List.drop_drop]
    rw [hsplit5, hdrop2, ← habbrlen, List.drop_left]
  simp only [parseDate, hinv, htake2, htake3, hdrop5, jsParseInt_padTo2, habbrlook,
    Option.getD_some, Option.map_some, jsMkDate]
  simp

theorem chartMonthKeys_append_bad (data : List AppSessionLog) (g : AppSessionLog)
    (hg : monthKeyOf (parseDate g.date.data) = none) :
    chartMonthKeys (data ++ [g]) = chartMonthKeys data := by
  unfold chartMonthKeys distinctDates
  rw [List.foldl_append]
  simp only [List.foldl_cons, List.foldl_nil]
  by_cases hmem : g.date ∈ data.foldl
      (fun acc log => if log.date ∈ acc then acc else acc ++ [log.date]) []
  · rw [if_pos hmem]
  · rw [if_neg hmem, List.filterMap_append]
    simp [hg]

/-! ### Claim C7 -/

/-- C7 (amended): the chart's date parser accepts both the long locale
label and the legacy compact label without error, recovering the intended
calendar date in both cases; a label in neither format yields an invalid
date marker (never an exception), and the month grouping of the chart
skips such entries, so one unparseable ledger record leaves the grouped
aggregation of the remaining records intact. (The source's epoch fallback
sits in a `catch` arm that no operation can trigger, so an unparseable
label is never given an epoch sort key; see the counterexample.) -/
theorem spec_c7_label_parsing :
    (∀ (d m y : Nat), m < 12 →
        parseDate (longLabel d m y) = .valid (y : Int) (m : Int) (d : Int))
    ∧ (∀ (d m y2 : Nat), m < 12 → d < 100 →
        parseDate (compactLabel d m y2) = .valid (2000 + (y2 : Int)) (m : Int) (d : Int))
    ∧ (∀ (data : List AppSessionLog) (g : AppSessionLog),
        monthKeyOf (parseDate g.date.data) = none →
        chartMonthKeys (data ++ [g]) = chartMonthKeys data) :=
  ⟨parseDate_longLabel, parseDate_compactLabel, chartMonthKeys_append_bad⟩

/-- Witness for C7: the two label shapes for 4 December 2025, and a
ledger extended by an unparseable record. -/
theorem spec_c7_witness :
    parseDate (longLabel 4 11 2025) = .valid 2025 11 4
    ∧ parseDate (compactLabel 4 11 25) = .valid 2025 11 4
    ∧ chartMonthKeys (sampleHistory ++
        [{ date := "banana", duration := "25:00", projectId := none, subtaskId := none }])
      = chartMonthKeys sampleHistory := by
  refine ⟨?_, ?_, ?_⟩
  · have h := spec_c7_label_parsing.1 4 11 2025 (by decide)
    rw [h]
    norm_num
  · have h := spec_c7_label_parsing.2.1 4 11 25 (by decide) (by decide)
    rw [h]
    norm_num
  · exact spec_c7_label_parsing.2.2 sampleHistory _ (by decide)

/-- Counterexample for C7 as stated: the label `"banana"` parses to an
invalid date, not to the epoch date, and the chart grouping drops the
record rather than sorting it under an epoch key. -/
theorem spec_c7_counterexample :
    parseDate (String.data "banana") = JsDate.invalid
    ∧ parseDate (String.data "banana") ≠ JsDate.valid 1970 0 1
    ∧ chartMonthKeys
        [{ date := "banana", duration := "25:00", projectId := none, subtaskId := none }]
      = [] := by
  exact ⟨by decide, by decide, by decide⟩
